import Mathlib

/-!
Verification of the `stack` package of lysu/panicparse (`src/stack/stack.go`)
against its natural-language specification.

The Go code is shallowly embedded: each Go function becomes a Lean
definition with the same name (inside the `Panicparse` namespace).  Strings
are Lean `String`s (Go compares strings byte-wise on UTF-8; Lean compares
`Char` lists by code point, which induces the same order).  Go `int` values
produced by `strconv.Atoi` are modelled as `Nat` with the 64-bit overflow
check made explicit.  The regexes of the source are concrete, so each is
translated into an executable matcher with Go/RE2 leftmost-first
(backtracking-preference) semantics.  A Go runtime panic is modelled as an
error value.
-/

namespace Panicparse

/-- Scanning predicate of `strings.SplitN(s, ".", 2)`: true while the
character is not the separator dot. -/
def isNotDot (c : Char) : Bool := c ≠ '.'

/-- Model of Go `strings.SplitN(s, ".", 2)` restricted to the single-character
separator used by the source: if `s` contains a dot, the two-element list of the
part before the first dot and everything after it; otherwise the one-element
list `[s]`. -/
def splitN2Dot (s : String) : List String :=
  let a := s.data.takeWhile isNotDot
  let b := s.data.dropWhile isNotDot
  match b with
  | [] => [String.mk a]
  | _ :: rest => [String.mk a, String.mk rest]

/-- Model of splitting a character list at a separator character, as
`strings.Split`/component splitting does; used to model `path/filepath`. -/
def splitOnChar (sep : Char) : List Char → List (List Char)
  | [] => [[]]
  | c :: cs =>
    let r := splitOnChar sep cs
    if c = sep then [] :: r
    else
      match r with
      | h :: t => (c :: h) :: t
      | [] => [[c]]

/-- Model of Go `path/filepath.Clean` on a POSIX host (the separator is `/`,
there is no volume name): empty paths clean to `.`, `.` components and empty
components are dropped, `..` components pop the previous component (and are
dropped at the root, or kept at the front of a relative path), and trailing
separators are removed. -/
def pathClean (p : String) : String :=
  if p.data = [] then "."
  else
    let rooted := p.data.head? = some '/'
    let comps := (splitOnChar '/' p.data).filter (fun c => ¬(c = [] ∨ c = ['.']))
    let stack := comps.foldl
      (fun acc c =>
        if c = ['.', '.'] then
          match acc.getLast? with
          | some top => if top = ['.', '.'] then acc ++ [c] else acc.dropLast
          | none => if rooted then [] else [c]
        else acc ++ [c])
      []
    let joined := List.intercalate ['/'] stack
    if rooted then String.mk ('/' :: joined)
    else if joined = [] then "." else String.mk joined

/-- Model of Go `path/filepath.Base` on a POSIX host: `.` for the empty path,
trailing slashes stripped, then everything after the last slash; `/` if the
path consisted only of slashes. -/
def filepathBase (p : String) : String :=
  if p.data = [] then "."
  else
    let l := (p.data.reverse.dropWhile (fun c => c = '/')).reverse
    let l2 := (l.reverse.takeWhile (fun c => c ≠ '/')).reverse
    if l2 = [] then "/" else String.mk l2

/-- Model of Go `path/filepath.Dir` on a POSIX host: the path up to and
including the last slash, cleaned; `.` when there is no slash. -/
def filepathDir (p : String) : String :=
  pathClean (String.mk ((p.data.reverse.dropWhile (fun c => c ≠ '/')).reverse))

/-- Model of Go `path/filepath.Join` on two elements: empty elements are
skipped, the rest are joined with `/` and cleaned; the empty string when both
elements are empty. -/
def filepathJoin (a b : String) : String :=
  if a = "" then (if b = "" then "" else pathClean b)
  else pathClean (a ++ "/" ++ b)

/-- The `Function` type of the source: a raw encoded symbol string. -/
structure Function where
  Raw : String
deriving DecidableEq, Repr

/-- Embedding of `Function.Name`.  The Go body is
`parts := strings.SplitN(filepath.Base(f.Raw), ".", 2); return parts[1]`:
the unguarded index `parts[1]` panics with an index-out-of-range runtime error
when the base contains no dot, which is modelled here by `none`. -/
def Function.Name (f : Function) : Option String :=
  (splitN2Dot (filepathBase f.Raw))[1]?

/-- The `Call` type of the source: one stack frame. -/
structure Call where
  SourcePath : String := ""
  Line : Nat := 0
  Func : Function := ⟨""⟩
  Args : String := ""
deriving DecidableEq, Repr

/-- Embedding of `Call.SourceName`: `filepath.Base(c.SourcePath)`. -/
def Call.SourceName (c : Call) : String :=
  filepathBase c.SourcePath

/-- Embedding of `Call.PkgSource`:
`filepath.Join(filepath.Base(filepath.Dir(c.SourcePath)), c.SourceName())`. -/
def Call.PkgSource (c : Call) : String :=
  filepathJoin (filepathBase (filepathDir c.SourcePath)) c.SourceName

/-- The `Signature` type of the source: state string, stack, and creator
frame.  (This version of the code has no `Elided`, `Locked`, `SleepMin` or
`SleepMax` field.) -/
structure Signature where
  State : String := ""
  Stack : List Call := []
  CreatedBy : Call := {}
deriving DecidableEq, Repr

/-- Embedding of the frame-comparison loop of `Signature.Equal`:
`for i := range l.Stack { if l.Stack[i] != r.Stack[i] { return false } }` —
the surrounding guard guarantees both lists have the same length. -/
def callsEq : List Call → List Call → Bool
  | x :: xs, y :: ys => if x ≠ y then false else callsEq xs ys
  | _, _ => true

/-- Embedding of `Signature.Equal`. -/
def Signature.Equal (l r : Signature) : Bool :=
  if l.State ≠ r.State ∨ l.Stack.length ≠ r.Stack.length ∨ l.CreatedBy ≠ r.CreatedBy then
    false
  else callsEq l.Stack r.Stack

/-- Model of Go's `<` operator on strings: lexicographic comparison (Go
compares the UTF-8 bytes; on valid text the induced order equals code-point
lexicographic order, used here). -/
def strLtChars : List Char → List Char → Bool
  | [], [] => false
  | [], _ :: _ => true
  | _ :: _, [] => false
  | a :: as, b :: bs => if a < b then true else if b < a then false else strLtChars as bs

/-- String comparison `a < b` as Go evaluates it. -/
def strLt (a b : String) : Bool := strLtChars a.data b.data

/-- Embedding of the frame-comparison loop of `Signature.Less`, kept exactly
as the source writes it: both the `<` and the `>` comparison of `Func.Raw`,
`PkgSource()` and `Line` return `true`. -/
def lessFrames : List Call → List Call → Bool
  | x :: xs, y :: ys =>
    if strLt x.Func.Raw y.Func.Raw then true
    else if strLt y.Func.Raw x.Func.Raw then true
    else if strLt x.PkgSource y.PkgSource then true
    else if strLt y.PkgSource x.PkgSource then true
    else if x.Line < y.Line then true
    else if y.Line < x.Line then true
    else lessFrames xs ys
  | _, _ => false

/-- Embedding of `Signature.Less`. -/
def Signature.Less (l r : Signature) : Bool :=
  if strLt l.State r.State then true
  else if strLt r.State l.State then false
  else if l.Stack.length < r.Stack.length then true
  else if r.Stack.length < l.Stack.length then false
  else lessFrames l.Stack r.Stack

/-- The `Goroutine` type of the source: a `Signature` plus `ID` and `First`. -/
structure Goroutine where
  Signature : Signature
  ID : Nat := 0
  First : Bool := false
deriving DecidableEq, Repr

/-- Model of Go `strconv.Atoi` restricted to the inputs the parser feeds it:
non-empty strings of decimal digits captured by a `\d+` regex group.  The
decimal value is returned unless it exceeds the 64-bit `MaxInt64`
(9223372036854775807), in which case `Atoi` reports a range error, modelled
as `none`. -/
def atoi (s : String) : Option Nat :=
  let n := s.data.foldl (fun acc c => acc * 10 + (c.toNat - 48)) 0
  if n ≤ 9223372036854775807 then some n else none

/-- Matcher for `reRoutineHeader = ^goroutine (\d+) \[([^\]]+)\]\:$`:
returns the two capture groups (the id digits and the state) on a match.
The regex is deterministic: `\d+` cannot include the following space and
`[^\]]+` cannot include the closing bracket, so maximal munch agrees with
the backtracking search. -/
def matchRoutineHeader (line : String) : Option (String × String) :=
  let cs := line.data
  if ("goroutine ".data).isPrefixOf cs then
    let rest := cs.drop 10
    let digits := rest.takeWhile (fun c => c.isDigit)
    let rest2 := rest.dropWhile (fun c => c.isDigit)
    if digits ≠ [] ∧ ([' ', '['].isPrefixOf rest2) then
      let rest3 := rest2.drop 2
      let state := rest3.takeWhile (fun c => c ≠ ']')
      let rest4 := rest3.dropWhile (fun c => c ≠ ']')
      if state ≠ [] ∧ rest4 = [']', ':'] then some (String.mk digits, String.mk state)
      else none
    else none
  else none

/-- Tail of the `reFile` regex after the path group: `\:(\d+)(?:| \+0x[0-9a-f]+)$`.
Returns the digit capture.  The digits are greedy and a shorter digit match
would leave a digit where either the end of line or a space is required, so
maximal munch agrees with the backtracking search. -/
def matchFileTail (r : List Char) : Option String :=
  match r with
  | ':' :: rest =>
    let digits := rest.takeWhile (fun c => c.isDigit)
    let rest2 := rest.dropWhile (fun c => c.isDigit)
    if digits = [] then none
    else if rest2 = [] then some (String.mk digits)
    else
      match rest2 with
      | ' ' :: '+' :: '0' :: 'x' :: hex =>
        if hex ≠ [] ∧ hex.all (fun c => c.isDigit ∨ ('a' ≤ c ∧ c ≤ 'f')) then
          some (String.mk digits)
        else none
      | _ => none
  | _ => none

/-- Path alternation of `reFile`: `(\<autogenerated\>|.+\.go)` followed by the
tail.  The left alternative is preferred; the `.+\.go` alternative is greedy,
so candidate split points are tried from the longest prefix down.  Returns the
two captures (path, line digits). -/
def matchFilePath (r : List Char) : Option (String × String) :=
  let auto := "<autogenerated>".data
  match (if auto.isPrefixOf r then matchFileTail (r.drop auto.length) else none) with
  | some digits => some ("<autogenerated>", digits)
  | none =>
    (List.range (r.length + 1)).reverse.findSome? (fun i =>
      let path := r.take i
      if 4 ≤ i ∧ ['.', 'g', 'o'].isSuffixOf path then
        (matchFileTail (r.drop i)).map (fun d => (String.mk path, d))
      else none)

/-- Matcher for
`reFile = ^(?:\t| +)(\<autogenerated\>|.+\.go)\:(\d+)(?:| \+0x[0-9a-f]+)$`:
returns the captures `(path, line digits)`.  A tab prefix is preferred; a
space prefix of length `k` is tried greedily from the maximal run of spaces
down to one (the path may itself begin with spaces). -/
def matchFile (line : String) : Option (String × String) :=
  match line.data with
  | '\t' :: rest => matchFilePath rest
  | cs =>
    let sp := cs.takeWhile (fun c => c = ' ')
    if sp = [] then none
    else
      (List.range sp.length).findSome? (fun j => matchFilePath (cs.drop (sp.length - j)))

/-- Matcher for `reCreated = ^created by (.+)$`: returns the capture. -/
def matchCreated (line : String) : Option String :=
  let cs := line.data
  if ("created by ".data).isPrefixOf cs ∧ cs.length > 11 then
    some (String.mk (cs.drop 11))
  else none

/-- Locates the last `(` of a character list, returning the part before it and
the part after it. -/
def splitLastParen : List Char → Option (List Char × List Char)
  | [] => none
  | c :: cs =>
    match splitLastParen cs with
    | some (a, b) => some (c :: a, b)
    | none => if c = '(' then some ([], cs) else none

/-- Matcher for `reFunc = ^(.+)\((.*)\)$`: the line must end with `)`; the
greedy `(.+)` takes everything up to the last `(` of the rest (which must be
non-empty), and `(.*)` is the part in between.  Returns the captures
`(symbol, args)`. -/
def matchFunc (line : String) : Option (String × String) :=
  match line.data.getLast? with
  | some ')' =>
    match splitLastParen line.data.dropLast with
    | some (a, b) => if a ≠ [] then some (String.mk a, String.mk b) else none
    | none => none
  | _ => none

/-- State of the `ParseDump` loop: the routine list built so far, whether the
`goroutine` pointer is non-nil (it always points at the last element of the
list), the `created` flag, and the lines written to the auxiliary writer
`out` (each Go write appends the line plus a newline; the model stores the
bare lines in order). -/
structure PDState where
  goroutines : List Goroutine := []
  inR : Bool := false
  created : Bool := false
  aux : List String := []
deriving DecidableEq, Repr

/-- The state at entry of `ParseDump`. -/
def initState : PDState := {}

/-- Applies a mutation through the `goroutine` pointer, which aliases the last
element of the `goroutines` slice. -/
def mutLast (gs : List Goroutine) (f : Goroutine → Goroutine) : List Goroutine :=
  match gs with
  | [] => []
  | [g] => [f g]
  | g :: rest => g :: mutLast rest f

/-- The stack of the routine the `goroutine` pointer designates. -/
def lastStack (gs : List Goroutine) : List Call :=
  match gs.getLast? with
  | some g => g.Signature.Stack
  | none => []

/-- Message of the Go runtime panic raised by `goroutine.Stack[i]` when the
stack is empty (`i = -1`); the panic is modelled as a parse-aborting error. -/
def panicMsg : String := "runtime error: index out of range"

/-- Mutation `goroutine.Stack[len-1].SourcePath = path; ... .Line = num` on the
last element of the call slice. -/
def mutLastCall (cs : List Call) (path : String) (num : Nat) : List Call :=
  match cs with
  | [] => []
  | [c] => [{ c with SourcePath := path, Line := num }]
  | c :: rest => c :: mutLastCall rest path num

/-- Mutation `goroutine.CreatedBy.SourcePath = path; goroutine.CreatedBy.Line = num`. -/
def setCreatedFile (path : String) (num : Nat) (g : Goroutine) : Goroutine :=
  { g with Signature := { g.Signature with CreatedBy := { g.Signature.CreatedBy with SourcePath := path, Line := num } } }

/-- Mutation of the top (last-pushed) call's `SourcePath` and `Line`. -/
def setTopCallFile (path : String) (num : Nat) (g : Goroutine) : Goroutine :=
  { g with Signature := { g.Signature with Stack := mutLastCall g.Signature.Stack path num } }

/-- Mutation `goroutine.CreatedBy.Func.Raw = sym`. -/
def setCreatedFunc (sym : String) (g : Goroutine) : Goroutine :=
  { g with Signature := { g.Signature with CreatedBy := { g.Signature.CreatedBy with Func := ⟨sym⟩ } } }

/-- Mutation `goroutine.Stack = append(goroutine.Stack, Call{Func, Args})`. -/
def pushCall (sym args : String) (g : Goroutine) : Goroutine :=
  { g with Signature := { g.Signature with Stack := g.Signature.Stack ++ [{ Func := ⟨sym⟩, Args := args }] } }

/-- The routine record appended when a header line matches: state from the
second capture, empty stack, id from the first capture, `First` exactly when
the routine list was empty. -/
def newGoroutine (st : String) (id : Nat) (isFirst : Bool) : Goroutine :=
  { Signature := { State := st, Stack := [], CreatedBy := {} }, ID := id, First := isFirst }

/-- One iteration of the `for scanner.Scan()` loop of `ParseDump` on the line
`scanner.Text()`: either the next state, or (for the early `return` on an
integer-parse failure, and for the runtime panic on an empty stack) the state
and error returned to the caller. -/
def step (s : PDState) (line : String) : Except (PDState × String) PDState :=
  if line.length = 0 then
    if s.inR then .ok { s with inR := false }
    else .ok { s with aux := s.aux ++ [line], inR := false }
  else if ¬s.inR then
    match matchRoutineHeader line with
    | some (digits, st) =>
      match atoi digits with
      | some id =>
        .ok { s with goroutines := s.goroutines ++ [newGoroutine st id (s.goroutines.length == 0)], inR := true }
      | none => .ok { s with aux := s.aux ++ [line] }
    | none => .ok { s with aux := s.aux ++ [line] }
  else
    match matchFile line with
    | some (path, digits) =>
      match atoi digits with
      | none => .error (s, "failed to parse int on line: \"" ++ line ++ "\"")
      | some num =>
        if s.created then
          .ok { s with created := false, goroutines := mutLast s.goroutines (setCreatedFile path num) }
        else if lastStack s.goroutines = [] then .error (s, panicMsg)
        else .ok { s with goroutines := mutLast s.goroutines (setTopCallFile path num) }
    | none =>
      match matchCreated line with
      | some sym =>
        .ok { s with created := true, goroutines := mutLast s.goroutines (setCreatedFunc sym) }
      | none =>
        match matchFunc line with
        | some (sym, args) =>
          .ok { s with goroutines := mutLast s.goroutines (pushCall sym args) }
        | none => .ok { s with aux := s.aux ++ [line], inR := false }

/-- Runs `step` over the scanned lines, stopping at the first error as the
source's early `return` does. -/
def parseLines : PDState → List String → PDState × Option String
  | s, [] => (s, none)
  | s, line :: rest =>
    match step s line with
    | .ok s2 => parseLines s2 rest
    | .error (s2, msg) => (s2, some msg)

/-- The maximum token size of a default `bufio.Scanner`
(`bufio.MaxScanTokenSize`); `ParseDump` does not enlarge the buffer. -/
def maxScanTokenSize : Nat := 65536

/-- Message of `bufio.ErrTooLong`. -/
def errTooLong : String := "bufio.Scanner: token too long"

/-- Model of the default `bufio.Scanner` with `bufio.ScanLines` over the raw
newline-separated segments of the input: each segment shorter than the token
limit is delivered with one trailing carriage return stripped; at the first
segment whose length reaches `maxScanTokenSize` the scanner fails with
`bufio.ErrTooLong` and delivers no further tokens. -/
def scanTokens : List String → List String × Bool
  | [] => ([], false)
  | l :: ls =>
    if maxScanTokenSize ≤ l.length then ([], true)
    else
      ((if l.data.getLast? = some '\x0d' then String.mk l.data.dropLast else l) :: (scanTokens ls).1,
       (scanTokens ls).2)

/-- Result of `ParseDump`: the routine list, the returned error (`none` for
nil), and the lines streamed to the auxiliary writer. -/
structure ParseOutput where
  goroutines : List Goroutine
  err : Option String
  aux : List String
deriving DecidableEq, Repr

/-- Embedding of `ParseDump`.  The reader is given as the list of raw
newline-separated segments of its byte stream.  The loop body's error (early
`return`) takes precedence; when the loop consumes every delivered token,
`scanner.Err()` is returned, which is `bufio.ErrTooLong` exactly when a
segment reached the token limit. -/
def ParseDump (rawLines : List String) : ParseOutput :=
  let scanned := scanTokens rawLines
  let parsed := parseLines initState scanned.1
  { goroutines := parsed.1.goroutines,
    err := match parsed.2 with
           | some e => some e
           | none => if scanned.2 then some errTooLong else none,
    aux := parsed.1.aux }

/-- Embedding of the body of `Bucketize` for one routine: find the first
existing bucket whose key signature `Equal`s the routine's signature and
append the routine to it, else open a new bucket keyed by a copy of the
routine's signature.  The Go original keys a `map[*Signature][]Goroutine` and
searches it in nondeterministic iteration order, but a routine can match at
most one key — keys are pairwise non-`Equal` since a key is only created when
no existing key matches and `Equal` is structural — so the ordered list model
assigns every routine to the same bucket the map search does. -/
def bucketizeIns (bs : List (Signature × List Goroutine)) (g : Goroutine) : List (Signature × List Goroutine) :=
  match bs with
  | [] => [(g.Signature, [g])]
  | (k, ms) :: rest =>
    if Signature.Equal k g.Signature then (k, ms ++ [g]) :: rest
    else (k, ms) :: bucketizeIns rest g

/-- Embedding of `Bucketize`: the linear scan over the routines. -/
def Bucketize (gs : List Goroutine) : List (Signature × List Goroutine) :=
  gs.foldl bucketizeIns []

/-- Total number of member routines over all buckets. -/
def bucketSum (bs : List (Signature × List Goroutine)) : Nat :=
  (bs.map (fun b => b.2.length)).sum

/-- Modelled from the spec: the per-frame comparison the spec's signature
equality uses — "all `(Func.Complete, dir/base-of SrcPath, Line)` triples are
equal".  `Func.Complete` is this version's `Func.Raw` and dir/base-of SrcPath
is `Call.PkgSource`. -/
def specCallTripleEq (x y : Call) : Bool :=
  x.Func.Raw == y.Func.Raw && x.PkgSource == y.PkgSource && x.Line == y.Line

/-- Spec-side triple comparison extended pointwise over the two stacks. -/
def specCallsEq : List Call → List Call → Bool
  | [], [] => true
  | x :: xs, y :: ys => specCallTripleEq x y && specCallsEq xs ys
  | _, _ => false

/-- Modelled from the spec: "Two signatures are equal iff `State`,
`Stack.Elided`, `len(Calls)`, and all `(Func.Complete, dir/base-of SrcPath,
Line)` triples are equal, AND `CreatedBy` equals field-for-field, AND `Locked`
matches."  This version's `Signature` has no `Elided`, `Locked`, `SleepMin` or
`SleepMax` field, so those conjuncts are vacuous here; `CreatedBy`
field-for-field is structural equality of the `Call` record. -/
def specSignatureEqual (l r : Signature) : Bool :=
  l.State == r.State && l.Stack.length == r.Stack.length &&
  specCallsEq l.Stack r.Stack && l.CreatedBy == r.CreatedBy

/-- The `First` flags of a routine list, in order. -/
def firstFlags (gs : List Goroutine) : List Bool := gs.map (fun g => g.First)

/-- The flag pattern `[true, false, false, ...]` of length `n` (empty for
`n = 0`). -/
def headTrue : Nat → List Bool
  | 0 => []
  | n + 1 => true :: List.replicate n false

/-- Left signature of the `Less` asymmetry failure: same state, same stack
length, frames differing only in `Func.Raw`. -/
def lessSigA : Signature :=
  { State := "running",
    Stack := [{ SourcePath := "/p/a.go", Line := 10, Func := ⟨"pkg.fa"⟩, Args := "" }],
    CreatedBy := {} }

/-- Right signature of the `Less` asymmetry failure. -/
def lessSigB : Signature :=
  { State := "running",
    Stack := [{ SourcePath := "/p/a.go", Line := 10, Func := ⟨"pkg.fb"⟩, Args := "" }],
    CreatedBy := {} }

/-- Left signature of the argument-sensitivity counterexample: identical to
`argSigB` except for the `Args` string of the single frame. -/
def argSigA : Signature :=
  { State := "chan receive",
    Stack := [{ SourcePath := "/gopath/src/foo/bar.go", Line := 72, Func := ⟨"foo.baz"⟩, Args := "0xc20803f3e0" }],
    CreatedBy := {} }

/-- Right signature of the argument-sensitivity counterexample. -/
def argSigB : Signature :=
  { State := "chan receive",
    Stack := [{ SourcePath := "/gopath/src/foo/bar.go", Line := 72, Func := ⟨"foo.baz"⟩, Args := "0xc20803f3f0" }],
    CreatedBy := {} }

/-- Dump whose only file line reports a `??` path (shape taken from the
repository's own `TestParseDump1` fixture). -/
def qqInput : List String :=
  ["goroutine 1 [running]:",
   "github.com/cockroachdb/cockroach/storage/engine._Cfunc_DBIterSeek()",
   " ??:0 +0x6d",
   ""]

/-- Dump whose only file line reports an assembly `.s` file with
`fp=`/`sp=` registers (shape taken from the repository's own
`TestParseDumpAsm` fixture). -/
def asmInput : List String :=
  ["goroutine 16 [garbage collection]:",
   "runtime.switchtoM()",
   "\t/goroot/src/runtime/asm_amd64.s:198 fp=0xc20cfb80d8 sp=0xc20cfb80d0",
   ""]

/-- A line one byte longer than the scanner's maximum token size, as in the
repository's own `TestParseDump1` fixture. -/
def longLine : String := String.mk (List.replicate 65537 'a')

/-- The long line followed by a well-formed dump. -/
def longInput : List String :=
  [longLine,
   "goroutine 1 [running]:",
   "main.main()",
   "\t/go/src/main.go:42 +0x27",
   ""]

/-- A routine followed by two blank lines: the first blank terminates the
routine, the second arrives with no routine in progress. -/
def doubleBlankInput : List String :=
  ["goroutine 7 [running]:",
   "main.main()",
   "\t/go/src/main.go:12 +0x64",
   "",
   ""]

/-- A whitespace line that reaches the scanner's token limit. -/
def spacesLine : String := String.mk (List.replicate 65536 ' ')

/-- A single whitespace line that reaches the scanner's token limit. -/
def longSpaces : List String := [spacesLine]

/-- Invariant behind the `First` flag: the flags of the routine list read
`true, false, false, ...`. -/
@[reducible] def FirstInv (s : PDState) : Prop :=
  firstFlags s.goroutines = headTrue s.goroutines.length

/-- A parser state in the middle of a routine, used to witness the
integer-overflow error path. -/
def c7State : PDState :=
  { goroutines := [{ Signature := { State := "running",
                                    Stack := [{ Func := ⟨"main.main"⟩ }],
                                    CreatedBy := {} },
                     ID := 1, First := true }],
    inR := true, created := false, aux := [] }

/-- A file line whose line-number field exceeds `MaxInt64`. -/
def c7Line : String := "\t/go/src/main.go:99999999999999999999 +0x27"

/-! Helper lemmas shared by several developments below. -/

lemma callsEq_eq_true_iff (xs ys : List Call) (h : xs.length = ys.length) :
    callsEq xs ys = true ↔ xs = ys := by
  induction xs generalizing ys with
  | nil =>
    cases ys with
    | nil => simp [callsEq]
    | cons y ys => simp at h
  | cons x xs ih =>
    cases ys with
    | nil => simp at h
    | cons y ys =>
      simp only [List.length_cons, Nat.add_right_cancel_iff] at h
      by_cases hxy : x = y
      · subst hxy
        simp [callsEq, ih ys h]
      · simp [callsEq, hxy]

lemma sigEqual_iff (l r : Signature) : Signature.Equal l r = true ↔ l = r := by
  unfold Signature.Equal
  by_cases h1 : l.State = r.State
  · by_cases h2 : l.Stack.length = r.Stack.length
    · by_cases h3 : l.CreatedBy = r.CreatedBy
      · simp only [h1, h2, h3, ne_eq, not_true_eq_false, false_or, or_self, if_false,
          callsEq_eq_true_iff l.Stack r.Stack h2]
        constructor
        · intro hs
          cases l; cases r
          simp_all
        · intro he
          rw [he]
      · have : l ≠ r := fun he => h3 (he ▸ rfl)
        simp [h3, this]
    · have : l ≠ r := fun he => h2 (he ▸ rfl)
      simp [h2, this]
  · have : l ≠ r := fun he => h1 (he ▸ rfl)
    simp [h1, this]

/-- C1: the signature ordering is claimed to be a strict total order — in
particular never `true` in both directions for one pair.  The code violates
this: in the per-frame loop the strict-greater comparisons also return
`true`, so two signatures that differ only in a frame's `Func.Raw` compare
`Less` in both directions.  (The spec itself records this as a noted bug the
code must not have.) -/
theorem c1_less_true_both_ways :
    Signature.Less lessSigA lessSigB = true ∧ Signature.Less lessSigB lessSigA = true := by
  decide

/-- C2: the claim says `??` paths, non-`.go` (assembly) paths and
`fp=…/sp=…` suffixes on file lines are accepted, their `SrcPath`/`Line`
recorded, and such lines never diverted to the auxiliary writer.  The code's
`reFile` regex accepts only `<autogenerated>` or `*.go` paths with an
optional ` +0x<hex>` suffix, so on the repository's own `TestParseDump1` and
`TestParseDumpAsm` shapes the file line falls through every pattern: the
frame keeps `SourcePath = ""`, `Line = 0`, and the line is echoed to the
auxiliary writer. -/
theorem c2_file_line_shapes_rejected :
    ParseDump qqInput =
      { goroutines := [{ Signature := { State := "running",
                                        Stack := [{ SourcePath := "", Line := 0,
                                                    Func := ⟨"github.com/cockroachdb/cockroach/storage/engine._Cfunc_DBIterSeek"⟩,
                                                    Args := "" }],
                                        CreatedBy := {} },
                         ID := 1, First := true }],
        err := none,
        aux := [" ??:0 +0x6d", ""] } ∧
    ParseDump asmInput =
      { goroutines := [{ Signature := { State := "garbage collection",
                                        Stack := [{ SourcePath := "", Line := 0,
                                                    Func := ⟨"runtime.switchtoM"⟩,
                                                    Args := "" }],
                                        CreatedBy := {} },
                         ID := 16, First := true }],
        err := none,
        aux := ["\t/goroot/src/runtime/asm_amd64.s:198 fp=0xc20cfb80d8 sp=0xc20cfb80d0", ""] } := by
  decide

/-- C3 counterexample: two signatures agreeing in `State`, stack length,
every `(Func.Raw, dir/base of SrcPath, Line)` triple and `CreatedBy`, yet
differing in one frame's argument string, are equal under the spec's
definition and unequal under the code's `Signature.Equal` — refuting the
claim that differing argument values do not make signatures unequal. -/
theorem c3_args_participate_in_equality :
    specSignatureEqual argSigA argSigB = true ∧ Signature.Equal argSigA argSigB = false := by
  decide

/-- C3 amended: `Signature.Equal` holds iff `State`, the full per-frame
`Call` records (complete `SourcePath`, `Line`, `Func.Raw` and `Args`), and
`CreatedBy` field-for-field all agree — i.e. it is structural equality of the
whole signature (this version has no `Elided`, `Locked`, `SleepMin` or
`SleepMax` field). -/
theorem c3_equal_iff_all_fields (l r : Signature) :
    Signature.Equal l r = true ↔
      (l.State = r.State ∧ l.Stack = r.Stack ∧ l.CreatedBy = r.CreatedBy) := by
  rw [sigEqual_iff]
  constructor
  · intro he
    rw [he]
    exact ⟨rfl, rfl, rfl⟩
  · intro ⟨h1, h2, h3⟩
    cases l; cases r
    simp_all

lemma dropWhile_isNotDot_spec (l : List Char) :
    (l.dropWhile isNotDot = [] ∧ '.' ∉ l) ∨
    (∃ rest, l.dropWhile isNotDot = '.' :: rest ∧ '.' ∈ l) := by
  induction l with
  | nil => left; simp
  | cons c cs ih =>
    by_cases hc : c = '.'
    · right
      subst hc
      refine ⟨cs, ?_, by simp⟩
      rw [List.dropWhile_cons]
      simp [isNotDot]
    · have hpc : isNotDot c = true := by simp [isNotDot, hc]
      have hnm : ¬('.' = c) := fun he => hc he.symm
      rcases ih with ⟨h1, h2⟩ | ⟨rest, h1, h2⟩
      · left
        refine ⟨?_, ?_⟩
        · rw [List.dropWhile_cons]
          simp [hpc, h1]
        · simp [List.mem_cons, hnm, h2]
      · right
        refine ⟨rest, ?_, by simp [h2]⟩
        rw [List.dropWhile_cons]
        simp [hpc, h1]

/-- C4 counterexample: on a raw symbol whose final path segment has no dot,
such as the bare name `schedule`, `Function.Name` is `none` — the Go body
indexes `parts[1]` out of range and panics, refuting the claim that the
accessor is defined for every raw symbol and returns the empty string
there. -/
theorem c4_name_aborts_on_dotless : Function.Name ⟨"schedule"⟩ = none := by decide

/-- C4 amended: `Function.Name` is defined exactly when the final path
segment of the raw symbol contains a dot, in which case it returns everything
after the first dot of that segment; for dotless symbols the unguarded
`parts[1]` index panics (modelled by `none`). -/
theorem c4_name_defined_iff_dot (raw : String) :
    Function.Name ⟨raw⟩ =
      (if '.' ∈ (filepathBase raw).data
       then some (String.mk (((filepathBase raw).data.dropWhile isNotDot).tail))
       else none) := by
  unfold Function.Name splitN2Dot
  rcases dropWhile_isNotDot_spec (filepathBase raw).data with ⟨h1, h2⟩ | ⟨rest, h1, h2⟩
  · rw [h1]
    simp [h2]
  · rw [h1]
    simp [h2]

lemma parseDump_of_scan_aborted (ls : List String) (h : scanTokens ls = ([], true)) :
    ParseDump ls = { goroutines := [], err := some errTooLong, aux := [] } := by
  unfold ParseDump
  rw [h]
  rfl

lemma longInput_scan : scanTokens longInput = ([], true) := by
  have hlen : longLine.length = 65537 := by
    show (List.replicate 65537 'a').length = 65537
    exact List.length_replicate 65537 'a'
  have h : maxScanTokenSize ≤ longLine.length := by
    rw [hlen]
    norm_num [maxScanTokenSize]
  unfold longInput scanTokens
  simp [h]

/-- C5: the claim says a pre-header line longer than the scanner's 64 KiB
token limit is streamed to the auxiliary writer and the routines after it
parse normally with a nil error.  `ParseDump` builds its `bufio.Scanner`
with the default buffer and never enlarges it, so the oversized line makes
`Scan` fail before any later line is seen: no routine is parsed, nothing
reaches the auxiliary writer, and the returned error is `bufio.ErrTooLong`
(the repository's own `TestParseDump1` exercises exactly this input and
demands a nil error). -/
theorem c5_long_line_poisons_parse :
    ParseDump longInput = { goroutines := [], err := some errTooLong, aux := [] } :=
  parseDump_of_scan_aborted longInput longInput_scan

/-- C6 counterexample: after a routine has started (and ended at the first
blank line), a second consecutive blank line arrives with no routine in
progress and is echoed to the auxiliary writer — refuting the claim that
every blank line after the first routine header is swallowed. -/
theorem c6_blank_between_routines_echoed : (ParseDump doubleBlankInput).aux = [""] := by decide

/-- C6 amended: a blank line is swallowed exactly when a routine is currently
in progress (it terminates that routine); any blank line seen while no
routine is in progress — before the first header, but also between routines
or after junk — is echoed verbatim to the auxiliary writer. -/
theorem c6_blank_echoed_iff_outside_routine (s : PDState) :
    step s "" = .ok { s with inR := false, aux := if s.inR then s.aux else s.aux ++ [""] } := by
  unfold step
  cases h : s.inR <;> simp [h]

/-- C7: when a file line's number field overflows `strconv.Atoi`, the parser
returns at that line with the error `failed to parse int on line: "<line>"`
and the routine list built so far — current routine and its frames
included — unchanged; the remaining input is not consumed. -/
theorem c7_int_overflow_stops_parse (s : PDState) (line : String) (rest : List String)
    (p d : String) (hin : s.inR = true) (hm : matchFile line = some (p, d))
    (ha : atoi d = none) :
    parseLines s (line :: rest) =
      (s, some ("failed to parse int on line: \"" ++ line ++ "\"")) := by
  have hne : ¬line.length = 0 := by
    intro h0
    have hempty : line = "" := by
      cases line with
      | mk data =>
        cases data with
        | nil => rfl
        | cons c cs => simp [String.length] at h0
    rw [hempty] at hm
    simp [matchFile] at hm
  unfold parseLines step
  simp [hne, hin, hm, ha]

/-- Witness for `c7_int_overflow_stops_parse` at a concrete state and line. -/
theorem c7_witness :
    parseLines c7State [c7Line] =
      (c7State, some ("failed to parse int on line: \"" ++ c7Line ++ "\"")) :=
  c7_int_overflow_stops_parse c7State c7Line [] "/go/src/main.go" "99999999999999999999"
    (by decide) (by decide) (by decide)

lemma mutLast_map_first (gs : List Goroutine) (f : Goroutine → Goroutine)
    (hf : ∀ g, (f g).First = g.First) :
    firstFlags (mutLast gs f) = firstFlags gs := by
  induction gs with
  | nil => rfl
  | cons g rest ih =>
    cases rest with
    | nil => simp [mutLast, firstFlags, hf]
    | cons g2 t =>
      show g.First :: firstFlags (mutLast (g2 :: t) f) = firstFlags (g :: g2 :: t)
      rw [ih]
      rfl

lemma mutLast_length (gs : List Goroutine) (f : Goroutine → Goroutine) :
    (mutLast gs f).length = gs.length := by
  induction gs with
  | nil => rfl
  | cons g rest ih =>
    cases rest with
    | nil => rfl
    | cons g2 t =>
      show (mutLast (g2 :: t) f).length + 1 = (g2 :: t).length + 1
      rw [ih]

lemma firstFlags_append (gs : List Goroutine) (g : Goroutine) :
    firstFlags (gs ++ [g]) = firstFlags gs ++ [g.First] := by
  simp [firstFlags]

lemma headTrue_snoc (n : Nat) : headTrue n ++ [n == 0] = headTrue (n + 1) := by
  cases n with
  | zero => rfl
  | succ m =>
    show (true :: List.replicate m false) ++ [false] = true :: List.replicate (m + 1) false
    simp [List.replicate_succ']

lemma firstInv_append_new (s : PDState) (st : String) (id : Nat) (h : FirstInv s) :
    FirstInv { s with
               goroutines := s.goroutines ++ [newGoroutine st id (s.goroutines.length == 0)],
               inR := true } := by
  show firstFlags (s.goroutines ++ [newGoroutine st id (s.goroutines.length == 0)]) = _
  rw [firstFlags_append]
  have hb : (newGoroutine st id (s.goroutines.length == 0)).First = (s.goroutines.length == 0) := rfl
  rw [hb, h, headTrue_snoc]
  simp

lemma firstInv_mutLast (gs : List Goroutine) (f : Goroutine → Goroutine)
    (hf : ∀ g, (f g).First = g.First)
    (h : firstFlags gs = headTrue gs.length) :
    firstFlags (mutLast gs f) = headTrue (mutLast gs f).length := by
  rw [mutLast_map_first gs f hf, mutLast_length]
  exact h

lemma step_first_inv_ok (s : PDState) (line : String) (h : FirstInv s) (s2 : PDState)
    (he : step s line = .ok s2) : FirstInv s2 := by
  unfold step at he
  repeat' split at he
  all_goals
    first
    | (injection he with h2
       subst h2
       first
       | exact h
       | exact firstInv_append_new s _ _ h
       | exact firstInv_mutLast s.goroutines _ (fun g => rfl) h)
    | simp at he

lemma step_first_inv_err (s : PDState) (line : String) (h : FirstInv s) (s2 : PDState)
    (msg : String) (he : step s line = .error (s2, msg)) : FirstInv s2 := by
  unfold step at he
  repeat' split at he
  all_goals
    first
    | (injection he with h2
       injection h2 with h3 h4
       subst h3
       exact h)
    | simp at he

lemma parseLines_first_inv (toks : List String) (s : PDState) (h : FirstInv s) :
    FirstInv (parseLines s toks).1 := by
  induction toks generalizing s with
  | nil => exact h
  | cons t ts ih =>
    unfold parseLines
    rcases he : step s t with ⟨s2, msg⟩ | s2
    · exact step_first_inv_err s t h s2 msg he
    · exact ih s2 (step_first_inv_ok s t h s2 he)

/-- C8 counterexample: a blank-only input parses with a nil error and an
empty routine list, so no routine at all has `First = true` — refuting
"exactly one routine in the returned list has `First = true`" for this
successfully parsed input. -/
theorem c8_empty_parse_has_no_first :
    (ParseDump [""]).err = none ∧
      ((ParseDump [""]).goroutines.filter (fun g => g.First)).length ≠ 1 := by
  decide

/-- C8 amended: in every parse result (successful or not), the `First` flags
of the returned routine list read `true, false, false, ...` — i.e. whenever
at least one routine was parsed, the first one in the list has `First = true`
and every later one has `First = false`, so exactly one routine carries the
flag; when no routine was parsed, none does. -/
theorem c8_first_marks_exactly_head (rawLines : List String) :
    firstFlags (ParseDump rawLines).goroutines =
      headTrue (ParseDump rawLines).goroutines.length := by
  exact parseLines_first_inv (scanTokens rawLines).1 initState rfl

lemma bucketSum_ins (bs : List (Signature × List Goroutine)) (g : Goroutine) :
    bucketSum (bucketizeIns bs g) = bucketSum bs + 1 := by
  induction bs with
  | nil => simp [bucketizeIns, bucketSum]
  | cons b rest ih =>
    rcases b with ⟨k, ms⟩
    unfold bucketizeIns
    by_cases heq : Signature.Equal k g.Signature = true
    · rw [if_pos heq]
      simp [bucketSum]
      omega
    · rw [if_neg heq]
      simp only [bucketSum, List.map_cons, List.sum_cons] at ih ⊢
      omega

lemma bucketizeIns_members (bs : List (Signature × List Goroutine)) (g : Goroutine)
    (h : ∀ b ∈ bs, ∀ x ∈ b.2, Signature.Equal b.1 x.Signature = true) :
    ∀ b ∈ bucketizeIns bs g, ∀ x ∈ b.2, Signature.Equal b.1 x.Signature = true := by
  induction bs with
  | nil =>
    intro b hb x hx
    simp only [bucketizeIns, List.mem_singleton] at hb
    subst hb
    simp only [List.mem_singleton] at hx
    subst hx
    exact (sigEqual_iff x.Signature x.Signature).mpr rfl
  | cons p rest ih =>
    rcases p with ⟨k, ms⟩
    have hhead := h (k, ms) (List.mem_cons_self _ _)
    have htail : ∀ b ∈ rest, ∀ x ∈ b.2, Signature.Equal b.1 x.Signature = true :=
      fun b hb => h b (List.mem_cons_of_mem _ hb)
    intro b hb x hx
    unfold bucketizeIns at hb
    by_cases heq : Signature.Equal k g.Signature = true
    · rw [if_pos heq] at hb
      rcases List.mem_cons.mp hb with rfl | hb2
      · rcases List.mem_append.mp hx with hx1 | hx2
        · exact hhead x hx1
        · simp only [List.mem_singleton] at hx2
          subst hx2
          exact heq
      · exact htail b hb2 x hx
    · rw [if_neg heq] at hb
      rcases List.mem_cons.mp hb with rfl | hb2
      · exact hhead x hx
      · exact ih htail b hb2 x hx

lemma bucketize_foldl (gs : List Goroutine) (bs : List (Signature × List Goroutine))
    (h : ∀ b ∈ bs, ∀ x ∈ b.2, Signature.Equal b.1 x.Signature = true) :
    bucketSum (gs.foldl bucketizeIns bs) = bucketSum bs + gs.length ∧
    ∀ b ∈ gs.foldl bucketizeIns bs, ∀ x ∈ b.2, Signature.Equal b.1 x.Signature = true := by
  induction gs generalizing bs with
  | nil => exact ⟨rfl, h⟩
  | cons g gs ih =>
    simp only [List.foldl_cons]
    obtain ⟨h1, h2⟩ := ih (bucketizeIns bs g) (bucketizeIns_members bs g h)
    refine ⟨?_, h2⟩
    rw [h1, bucketSum_ins]
    simp only [List.length_cons]
    omega

/-- C9: bucketization partitions the routine list — the total number of
member routines over all buckets equals the number of input routines (each
routine is placed in exactly one bucket), and every routine in a bucket has a
signature `Equal` to the bucket's key signature. -/
theorem c9_bucketize_partitions (gs : List Goroutine) :
    bucketSum (Bucketize gs) = gs.length ∧
    ∀ b ∈ Bucketize gs, ∀ x ∈ b.2, Signature.Equal b.1 x.Signature = true := by
  have h := bucketize_foldl gs [] (by intro b hb; simp at hb)
  simpa [Bucketize, bucketSum] using h

lemma scanTokens_all_short (lines : List String)
    (hl : ∀ l ∈ lines, l.length < maxScanTokenSize) :
    (scanTokens lines).2 = false ∧
    ∀ t ∈ (scanTokens lines).1, ∃ l ∈ lines, t.data.Sublist l.data := by
  induction lines with
  | nil => simp [scanTokens]
  | cons l ls ih =>
    have hnot : ¬maxScanTokenSize ≤ l.length := by
      have := hl l (List.mem_cons_self l ls)
      omega
    obtain ⟨ih1, ih2⟩ := ih (fun x hx => hl x (List.mem_cons_of_mem l hx))
    unfold scanTokens
    rw [if_neg hnot]
    refine ⟨ih1, ?_⟩
    intro t ht
    rcases List.mem_cons.mp ht with rfl | ht2
    · by_cases hcr : l.data.getLast? = some '\x0d'
      · refine ⟨l, List.mem_cons_self _ _, ?_⟩
        rw [if_pos hcr]
        exact List.dropLast_sublist l.data
      · refine ⟨l, List.mem_cons_self _ _, ?_⟩
        rw [if_neg hcr]
    · obtain ⟨l2, hl2, hs⟩ := ih2 t ht2
      exact ⟨l2, List.mem_cons_of_mem _ hl2, hs⟩

lemma matchRoutineHeader_ws (t : String) (hw : ∀ c ∈ t.data, c = ' ' ∨ c = '\x0d') :
    matchRoutineHeader t = none := by
  have hpre : ("goroutine ".data).isPrefixOf t.data = false := by
    rcases hd : t.data with _ | ⟨c, cs⟩
    · rfl
    · have hc := hw c (by rw [hd]; exact List.mem_cons_self _ _)
      have hgc : ('g' == c) = false := by
        rcases hc with rfl | rfl <;> rfl
      show List.isPrefixOf ('g' :: "oroutine ".data) (c :: cs) = false
      simp [List.isPrefixOf, hgc]
  simp [matchRoutineHeader, hpre]

lemma parseLines_ws (toks : List String) (s : PDState)
    (hg : s.goroutines = []) (hr : s.inR = false)
    (hw : ∀ t ∈ toks, ∀ c ∈ t.data, c = ' ' ∨ c = '\x0d') :
    (parseLines s toks).1.goroutines = [] ∧ (parseLines s toks).2 = none := by
  induction toks generalizing s with
  | nil =>
    unfold parseLines
    exact ⟨hg, rfl⟩
  | cons t ts ih =>
    unfold parseLines
    have hwt := hw t (List.mem_cons_self t ts)
    have hwts : ∀ x ∈ ts, ∀ c ∈ x.data, c = ' ' ∨ c = '\x0d' :=
      fun x hx => hw x (List.mem_cons_of_mem t hx)
    have hnr : ¬s.inR = true := by
      rw [hr]
      simp
    by_cases h0 : t.length = 0
    · have hstep : step s t = .ok { s with aux := s.aux ++ [t], inR := false } := by
        unfold step
        rw [if_pos h0, if_neg hnr]
      rw [hstep]
      exact ih _ hg rfl hwts
    · have hstep : step s t = .ok { s with aux := s.aux ++ [t] } := by
        unfold step
        rw [if_neg h0, if_pos hnr, matchRoutineHeader_ws t hwt]
      rw [hstep]
      exact ih _ hg hr hwts

lemma longSpaces_scan : scanTokens longSpaces = ([], true) := by
  have hlen : spacesLine.length = 65536 := by
    show (List.replicate 65536 ' ').length = 65536
    exact List.length_replicate 65536 ' '
  have h : maxScanTokenSize ≤ spacesLine.length := by
    rw [hlen]
    norm_num [maxScanTokenSize]
  unfold longSpaces scanTokens
  simp [h]

/-- C10 counterexample: a whitespace-only input whose single line is 65536
spaces reaches the scanner's token limit, so parsing returns
`bufio.ErrTooLong` rather than the claimed nil error. -/
theorem c10_long_whitespace_line_errors :
    ParseDump longSpaces = { goroutines := [], err := some errTooLong, aux := [] } :=
  parseDump_of_scan_aborted longSpaces longSpaces_scan

/-- C10 amended: every input consisting only of whitespace (blank lines or
lines of spaces, each optionally CR-terminated) whose lines stay below the
scanner's 64 KiB token limit parses to an empty routine list with a nil
error; a whitespace line at or beyond the limit instead aborts scanning with
`bufio.ErrTooLong`. -/
theorem c10_whitespace_short_lines (lines : List String)
    (hw : ∀ l ∈ lines, ∀ c ∈ l.data, c = ' ' ∨ c = '\x0d')
    (hl : ∀ l ∈ lines, l.length < maxScanTokenSize) :
    (ParseDump lines).goroutines = [] ∧ (ParseDump lines).err = none := by
  obtain ⟨hfalse, hsub⟩ := scanTokens_all_short lines hl
  have hwt : ∀ t ∈ (scanTokens lines).1, ∀ c ∈ t.data, c = ' ' ∨ c = '\x0d' := by
    intro t ht c hc
    obtain ⟨l, hlm, hs⟩ := hsub t ht
    exact hw l hlm c (hs.subset hc)
  obtain ⟨hg, he⟩ := parseLines_ws (scanTokens lines).1 initState rfl rfl hwt
  constructor
  · exact hg
  · simp only [ParseDump]
    rw [he, hfalse]
    rfl

/-- Witness for `c10_whitespace_short_lines` on a small concrete whitespace
input. -/
theorem c10_witness :
    (ParseDump ["", "  ", " \x0d"]).goroutines = [] ∧
      (ParseDump ["", "  ", " \x0d"]).err = none :=
  c10_whitespace_short_lines ["", "  ", " \x0d"] (by decide) (by decide)

end Panicparse
